import Mathlib

/-!
Verification of the locale-resolution and direction-aware metadata core of
the portfolio application.

The embedding follows the source files:
  - `lib/i18n/config.ts`  : locale registry (`locales`, `localesCodes`, `defaultLocale`)
  - `lib/i18n/routing.ts` : routing configuration (`routing`)
  - `lib/i18n/request.ts` : locale resolver (the ternary in `getRequestConfig`)
  - `lib/i18n/utils.ts`   : direction/display lookups
  - `proxy.ts`            : exclusion matcher pattern (`config.matcher`)
  - `lib/seo/config.ts`   : metadata builder (`getMetadata`, `siteConfig`)
  - `lib/seo/schema.ts`   : JSON-LD schema builders (`websiteSchema`, `personSchema`)
  - `app/layout.tsx`      : non-localized root layout calling the schema builders

TypeScript strings are Lean `String`; `string | undefined` parameters are
`Option String`; JavaScript truthiness of a string (falsy exactly on the
empty string and on `undefined`) is made explicit where the source relies
on it.
-/

/-- Text direction of a locale: the source's `"ltr" | "rtl"` union. -/
inductive Dir where
  | ltr
  | rtl
deriving DecidableEq, BEq, Repr

/-- One supported locale record (`LocaleConfig` in `lib/i18n/config.ts`). -/
structure LocaleConfig where
  code : String
  name : String
  nativeName : String
  direction : Dir
  flag : String
deriving DecidableEq, Repr

/-- The registry of supported locales, in source order (`locales` in `lib/i18n/config.ts`). -/
def locales : List LocaleConfig :=
  [ ⟨"ar", "Arabic", "العربية", Dir.rtl, "🇩🇿"⟩,
    ⟨"fr", "French", "Français", Dir.ltr, "🇫🇷"⟩,
    ⟨"en", "English", "English", Dir.ltr, "🇬🇧"⟩ ]

/-- List of supported locale codes (`localesCodes = locales.map(l => l.code)`). -/
def localesCodes : List String := locales.map (fun l => l.code)

/-- Default locale for the application (`defaultLocale` in `lib/i18n/config.ts`). -/
def defaultLocale : String := "en"

/-- Routing configuration record produced by `defineRouting` in `lib/i18n/routing.ts`;
`localePrefixPolicy` embeds the source's locale-prefix field, set to `"always"`. -/
structure Routing where
  locales : List String
  defaultLocale : String
  localePrefixPolicy : String

/-- The routing configuration of `lib/i18n/routing.ts`: all supported locales,
the default locale, and the always-show-prefix policy. -/
def routing : Routing := ⟨localesCodes, defaultLocale, "always"⟩

/-- The locale resolver: the ternary in `lib/i18n/request.ts`,
`requestedLocale && routing.locales.includes(requestedLocale) ? requestedLocale : routing.defaultLocale`.
`none` models an absent `requestedLocale`; the `s ≠ ""` conjunct makes the
JavaScript truthiness test on the string explicit. -/
def resolveLocale (requestedLocale : Option String) : String :=
  match requestedLocale with
  | some s => if s ≠ "" ∧ s ∈ routing.locales then s else routing.defaultLocale
  | none => routing.defaultLocale

/-- Check if a locale is RTL (`isRTL` in `lib/i18n/utils.ts`):
`locales.find(l => l.code === locale)?.direction === "rtl"`. -/
def isRTL (locale : String) : Bool :=
  match locales.find? (fun l => l.code == locale) with
  | some localeConfig => localeConfig.direction == Dir.rtl
  | none => false

/-- Get text direction for a locale (`getDirection` in `lib/i18n/utils.ts`). -/
def getDirection (locale : String) : Dir :=
  if isRTL locale then Dir.rtl else Dir.ltr

/-- Get locale configuration by code (`getLocaleConfig` in `lib/i18n/utils.ts`). -/
def getLocaleConfig (locale : String) : Option LocaleConfig :=
  locales.find? (fun l => l.code == locale)

/-- Validate if a string is a valid locale (`isValidLocale` in `lib/i18n/utils.ts`). -/
def isValidLocale (locale : String) : Bool :=
  localesCodes.contains locale

/-- Get CSS class name for font based on locale direction (`getFontClassName`). -/
def getFontClassName (locale : String) : String :=
  if isRTL locale then "font-arabic" else "font-latin"

/-- Get locale display name in native language (`getLocaleDisplayName` in
`lib/i18n/utils.ts`): `config?.nativeName || locale`; the `||` falls back both
when the lookup misses and when `nativeName` is the empty string. -/
def getLocaleDisplayName (locale : String) : String :=
  match getLocaleConfig locale with
  | some config => if config.nativeName = "" then locale else config.nativeName
  | none => locale

/-- Get opposite direction for a locale (`getOppositeDirection` in
`lib/i18n/utils.ts`): `direction === "rtl" ? "ltr" : "rtl"`; the body always
returns a direction, never the `undefined` admitted by its declared type. -/
def getOppositeDirection (locale : String) : Dir :=
  if getDirection locale = Dir.rtl then Dir.ltr else Dir.rtl

/-- The exclusion matcher of `proxy.ts` (`config.matcher`), transcribing the
regular expression `/((?!api|_next|_vercel|images|icons|.*\..*).*)`: the path
must start with `/`, and the remainder must not start with any of the listed
prefixes and must not contain a dot. A `.` in the pattern never matches a
newline, so a path whose remainder contains a newline cannot be matched in
full by the trailing wildcard; the first conjunct transcribes that. -/
def matcherAccepts (path : String) : Bool :=
  match path.data with
  | '/' :: rest =>
      !(rest.contains '\n')
        && !(("api".data.isPrefixOf rest) || ("_next".data.isPrefixOf rest)
          || ("_vercel".data.isPrefixOf rest) || ("images".data.isPrefixOf rest)
          || ("icons".data.isPrefixOf rest))
        && !(rest.contains '.')
  | _ => false

/-- Outcome of the routing proxy for one request: an HTTP redirect to a new
location, or a pass-through carrying the resolved locale as routing context. -/
inductive RouteResult where
  | redirect (location : String)
  | pass (locale : String)
deriving DecidableEq, Repr

/-- Render a list of path segments as a slash-separated request path. -/
def renderPath (segs : List String) : String :=
  "/" ++ String.intercalate "/" segs

/-- First path segment of a request path, if any. -/
def firstSegment (segs : List String) : Option String :=
  segs.head?

/-- Modelled from the spec: the locale-candidate extraction of the Request
Router (spec 4.3). The router itself is the third-party
`createMiddleware(routing)` called from `proxy.ts`, whose code is not part of
this repository: "Extract the first path segment as the locale candidate
(absent if path has no segments or the first segment isn't a known locale)." -/
def localeCandidate (segs : List String) : Option String :=
  match firstSegment segs with
  | some seg => if seg ∈ routing.locales then some seg else none
  | none => none

/-- Modelled from the spec: the Request Router step for a non-excluded path
(spec 4.3), implemented outside this repository by `createMiddleware(routing)`
applied to the repository's routing configuration: resolve the locale
candidate, pass the request through when the first segment already equals the
resolved code, and otherwise redirect to the same path prefixed with the
resolved locale's code. -/
def handleRequest (segs : List String) : RouteResult :=
  let resolved := resolveLocale (localeCandidate segs)
  if firstSegment segs = some resolved then RouteResult.pass resolved
  else RouteResult.redirect (renderPath (resolved :: segs))

/-- Author record of `siteConfig` in `lib/seo/config.ts`. -/
structure SiteAuthor where
  name : String
  email : String
  url : String

/-- External profile links of `siteConfig` in `lib/seo/config.ts`. -/
structure SiteLinks where
  github : String
  linkedin : String

/-- Site-wide SEO configuration (`siteConfig` in `lib/seo/config.ts`): the
fields consumed by the metadata and schema builders. -/
structure SiteConfig where
  name : String
  description : String
  url : String
  ogImage : String
  links : SiteLinks
  author : SiteAuthor

/-- The `siteConfig` constant of `lib/seo/config.ts`. -/
def siteConfig : SiteConfig :=
  ⟨"iZak Code - Full Stack Developer",
   "Full-stack developer specializing in React, Next.js, and TypeScript. Building modern web applications with great UX.",
   "https://izakcode.com",
   "/og-image.png",
   ⟨"https://github.com/Zakaria-Bli", "https://linkedin.com/in/zakaria-bli"⟩,
   ⟨"Zakaria-Bli - iZak Code", "contact@izakcode.com", "https://izakcode.com"⟩⟩

/-- The `alternates` block of the metadata document built by `getMetadata`. -/
structure AlternatesDoc where
  canonical : String
  languages : List (String × String)

/-- The `openGraph` block of the metadata document built by `getMetadata`. -/
structure OpenGraphDoc where
  ogType : String
  locale : String
  url : String
  title : String
  description : String
  siteName : String

/-- Locale-dependent projection of the `Metadata` value built by `getMetadata`
in `lib/seo/config.ts`. -/
structure MetadataDoc where
  titleDefault : String
  titleTemplate : String
  description : String
  openGraph : OpenGraphDoc
  alternates : AlternatesDoc

/-- The metadata builder (`getMetadata` in `lib/seo/config.ts`); `t` is the
externally supplied translated-string lookup (`getTranslations` for the
`Metadata` namespace of the resolved locale). Title and description come from
`t`, the canonical URL carries the active locale's prefix, and
`alternates.languages` is
`Object.fromEntries(localesCodes.map((code) => [code, "/" + code]))`. -/
def getMetadata (locale : String) (t : String → String) : MetadataDoc :=
  { titleDefault := t "title"
    titleTemplate := "%s | " ++ t "title"
    description := t "description"
    openGraph :=
      { ogType := "website"
        locale := locale
        url := siteConfig.url ++ "/" ++ locale
        title := t "title"
        description := t "description"
        siteName := t "title" }
    alternates :=
      { canonical := "/" ++ locale
        languages := localesCodes.map (fun code => (code, "/" ++ code)) } }

/-- Author sub-object emitted inside the website schema. -/
structure SchemaAuthor where
  atType : String
  name : String
  url : String

/-- The JSON-LD WebSite object built by `websiteSchema`; `inLanguage` is an
`Option` mirroring the optional `inLanguage?: string` of the source's
`WithContext` type, so an omitted tag would be `none`. -/
structure WebsiteSchemaDoc where
  atContext : String
  atType : String
  name : String
  url : String
  description : String
  inLanguage : Option String
  author : SchemaAuthor

/-- Generate Website schema (`websiteSchema` in `lib/seo/schema.ts`). -/
def websiteSchema (locale : String) : WebsiteSchemaDoc :=
  { atContext := "https://schema.org"
    atType := "WebSite"
    name := siteConfig.name
    url := siteConfig.url
    description := siteConfig.description
    inLanguage := some locale
    author := ⟨"Person", siteConfig.author.name, siteConfig.author.url⟩ }

/-- Optional override fields accepted by `personSchema` (`Partial<Person>` in
`lib/seo/schema.ts`); the `Person` type has no `inLanguage` field, so the
`...overrides` spread cannot change the language tag. -/
structure PersonOverrides where
  name : Option String
  url : Option String
  email : Option String
  jobTitle : Option String
  sameAs : Option (List String)

/-- The empty override record, modelling a call with `overrides` absent. -/
def noOverrides : PersonOverrides := ⟨none, none, none, none, none⟩

/-- The JSON-LD Person object built by `personSchema`; `inLanguage` is an
`Option` mirroring the optional `inLanguage?: string` of the source type. -/
structure PersonSchemaDoc where
  atContext : String
  atType : String
  name : String
  url : String
  email : String
  jobTitle : Option String
  inLanguage : Option String
  sameAs : List String

/-- Generate Person schema (`personSchema` in `lib/seo/schema.ts`): base
fields from `siteConfig`, `inLanguage` set to the locale parameter, then the
`...overrides` spread replacing exactly the fields present in `overrides`. -/
def personSchema (overrides : PersonOverrides) (locale : String) : PersonSchemaDoc :=
  { atContext := "https://schema.org"
    atType := "Person"
    name := (overrides.name).getD siteConfig.author.name
    url := (overrides.url).getD siteConfig.author.url
    email := (overrides.email).getD siteConfig.author.email
    jobTitle := overrides.jobTitle
    inLanguage := some locale
    sameAs := (overrides.sameAs).getD
      ([siteConfig.links.github, siteConfig.links.linkedin].filter (fun s => s != "")) }

/-- The declared default value of the schema builders' `locale` parameter
(`locale: Locale = "en"` in `lib/seo/schema.ts`). -/
def schemaDefaultLocaleParam : String := "en"

/-- The website schema emitted by the non-localized root layout:
`app/layout.tsx` calls `websiteSchema()` with no argument, so the declared
parameter default applies. -/
def rootLayoutWebsiteSchema : WebsiteSchemaDoc :=
  websiteSchema schemaDefaultLocaleParam

/-- The person schema emitted by the non-localized root layout:
`app/layout.tsx` calls `personSchema()` with both arguments absent. -/
def rootLayoutPersonSchema : PersonSchemaDoc :=
  personSchema noOverrides schemaDefaultLocaleParam

/-- C1: the locale resolver returns a present candidate exactly when it equals a
registered code case-sensitively, and returns the default code `"en"` otherwise;
in particular `resolve "xx" = resolve none = "en"`, and the wrong-case
candidate `"Ar"` resolves to `"en"`. -/
theorem locale_resolver_exact_match_or_default :
    (∀ s, s ∈ routing.locales → resolveLocale (some s) = s)
    ∧ (∀ s, s ∉ routing.locales → resolveLocale (some s) = "en")
    ∧ resolveLocale none = "en"
    ∧ resolveLocale (some "xx") = "en"
    ∧ resolveLocale (some "Ar") = "en" := by
  refine ⟨?_, ?_, by decide, by decide, by decide⟩
  · intro s hs
    have hl : routing.locales = ["ar", "fr", "en"] := rfl
    rw [hl] at hs
    simp only [List.mem_cons, List.not_mem_nil, or_false] at hs
    rcases hs with rfl | rfl | rfl <;> decide
  · intro s hs
    show (if s ≠ "" ∧ s ∈ routing.locales then s else routing.defaultLocale) = "en"
    rw [if_neg (fun hc => hs hc.2)]
    rfl

theorem locale_resolver_exact_match_or_default_witness :
    resolveLocale (some "ar") = "ar" ∧ resolveLocale (some "zz") = "en" :=
  ⟨locale_resolver_exact_match_or_default.1 "ar" (by decide),
   locale_resolver_exact_match_or_default.2.1 "zz" (by decide)⟩

/-- C2: the resolver is total and its result is always a member of the
registry's code set, for an absent candidate and for every candidate string
(empty, non-ASCII, or a registered code alike). -/
theorem locale_resolution_totality :
    ∀ candidate : Option String, resolveLocale candidate ∈ localesCodes := by
  intro candidate
  cases candidate with
  | none => decide
  | some s =>
    show (if s ≠ "" ∧ s ∈ routing.locales then s else routing.defaultLocale) ∈ localesCodes
    split
    · next h => exact h.2
    · next => decide

/-- C5: for every registered code, `isRTL` agrees with `getDirection = rtl`, and
for every input string the opposite direction differs from the direction. -/
theorem direction_consistency :
    (∀ c, c ∈ localesCodes → (isRTL c = true ↔ getDirection c = Dir.rtl))
    ∧ (∀ c : String, getOppositeDirection c ≠ getDirection c) := by
  constructor
  · intro c _hc
    show isRTL c = true ↔ (if isRTL c then Dir.rtl else Dir.ltr) = Dir.rtl
    cases h : isRTL c <;> simp [h]
  · intro c
    show (if getDirection c = Dir.rtl then Dir.ltr else Dir.rtl) ≠ getDirection c
    by_cases h : getDirection c = Dir.rtl
    · rw [if_pos h, h]
      decide
    · rw [if_neg h]
      exact fun e => h e.symm

theorem direction_consistency_witness :
    isRTL "ar" = true ↔ getDirection "ar" = Dir.rtl :=
  direction_consistency.1 "ar" (by decide)

/-- Helper: an unregistered code misses every record of the registry. -/
theorem find_code_eq_none_of_not_mem (s : String) (hs : s ∉ localesCodes) :
    locales.find? (fun l => l.code == s) = none := by
  cases h : locales.find? (fun l => l.code == s) with
  | none => rfl
  | some cfg =>
    exfalso
    have hmem : cfg ∈ locales := List.mem_of_find?_eq_some h
    have hcode := List.find?_some h
    have hceq : cfg.code = s := by simpa using hcode
    exact hs (hceq ▸ List.mem_map_of_mem (fun l => l.code) hmem)

/-- C6: for every string that is not a registered code, the direction and
display lookups fall back safely: `isRTL` is false, the direction is the
registry default's direction (`ltr` for default `"en"`), and the display name
is the raw code string itself. -/
theorem unknown_code_safe_fallback (s : String) (hs : s ∉ localesCodes) :
    isRTL s = false
    ∧ getDirection s = getDirection defaultLocale
    ∧ getDirection s = Dir.ltr
    ∧ getLocaleDisplayName s = s := by
  have hfind := find_code_eq_none_of_not_mem s hs
  have h1 : isRTL s = false := by
    unfold isRTL
    rw [hfind]
  have h2 : getDirection s = Dir.ltr := by
    simp [getDirection, h1]
  refine ⟨h1, ?_, h2, ?_⟩
  · rw [h2]; decide
  · unfold getLocaleDisplayName getLocaleConfig
    rw [hfind]

theorem unknown_code_safe_fallback_witness :
    isRTL "xx" = false
    ∧ getDirection "xx" = getDirection defaultLocale
    ∧ getDirection "xx" = Dir.ltr
    ∧ getLocaleDisplayName "xx" = "xx" :=
  unknown_code_safe_fallback "xx" (by decide)

/-- C9: the locale registry satisfies the construction-time invariants: codes
are unique, no code is empty, and there is exactly one default (the registry's
single `defaultLocale` constant names exactly one registered record). The
registry is a static constant fixed before any request is processed, so no
violation can surface at request time. -/
theorem locale_registry_invariants :
    localesCodes.Nodup
    ∧ "" ∉ localesCodes
    ∧ defaultLocale ∈ localesCodes
    ∧ (locales.filter (fun l => l.code == defaultLocale)).length = 1 := by
  decide

/-- C3: for every non-excluded request path, the router redirects exactly when
the first path segment does not already equal the resolved locale code;
`/about` (no locale segment) redirects to `/en/about`, and an already-prefixed
path `/c/p` for a supported code `c` passes through with no further redirect. -/
theorem router_redirect_iff_prefix_mismatch :
    (∀ segs : List String, matcherAccepts (renderPath segs) = true →
      ((∃ url, handleRequest segs = RouteResult.redirect url) ↔
        firstSegment segs ≠ some (resolveLocale (localeCandidate segs))))
    ∧ handleRequest ["about"] = RouteResult.redirect "/en/about"
    ∧ (∀ c, c ∈ localesCodes → ∀ p : List String,
        handleRequest (c :: p) = RouteResult.pass c) := by
  refine ⟨?_, by decide, ?_⟩
  · intro segs _h
    by_cases h : firstSegment segs = some (resolveLocale (localeCandidate segs))
    · simp [handleRequest, h]
    · simp [handleRequest, h]
  · intro c hc p
    have hl : localesCodes = ["ar", "fr", "en"] := rfl
    rw [hl] at hc
    simp only [List.mem_cons, List.not_mem_nil, or_false] at hc
    rcases hc with rfl | rfl | rfl <;> rfl

theorem router_redirect_iff_prefix_mismatch_witness :
    (∃ url, handleRequest ["about"] = RouteResult.redirect url)
    ∧ handleRequest ["ar", "projects"] = RouteResult.pass "ar" :=
  ⟨(router_redirect_iff_prefix_mismatch.1 ["about"] (by decide)).mpr (by decide),
   router_redirect_iff_prefix_mismatch.2.2 "ar" (by decide) ["projects"]⟩

/-- C7: the exclusion matcher never intercepts `/api/users`,
`/_next/static/x.js`, or `/favicon.ico`, while `/`, `/ar` and `/projects`
remain eligible for redirect/resolution. -/
theorem exclusion_matcher_boundary :
    matcherAccepts "/api/users" = false
    ∧ matcherAccepts "/_next/static/x.js" = false
    ∧ matcherAccepts "/favicon.ico" = false
    ∧ matcherAccepts "/" = true
    ∧ matcherAccepts "/ar" = true
    ∧ matcherAccepts "/projects" = true := by
  decide

/-- C4: for any resolved locale and supplied translated strings, the
`alternates.languages` mapping lists exactly the registered locale codes — one
entry per code, independent of which locale is active — each mapped to that
code's URL variant of the current request path. -/
theorem metadata_alternates_completeness (locale : String) (t : String → String) :
    ((getMetadata locale t).alternates.languages.map Prod.fst = localesCodes)
    ∧ localesCodes.Nodup
    ∧ (∀ p, p ∈ (getMetadata locale t).alternates.languages → p.2 = "/" ++ p.1) := by
  refine ⟨rfl, by decide, ?_⟩
  intro p hp
  have hp2 : p ∈ ([("ar", "/ar"), ("fr", "/fr"), ("en", "/en")] : List (String × String)) := hp
  simp only [List.mem_cons, List.not_mem_nil, or_false] at hp2
  rcases hp2 with rfl | rfl | rfl <;> rfl

theorem metadata_alternates_completeness_witness :
    (("fr", "/fr") : String × String).2 = "/" ++ (("fr", "/fr") : String × String).1 :=
  (metadata_alternates_completeness "ar" (fun k => k)).2.2 ("fr", "/fr") (by decide)

/-- C8: for every resolved locale (including when it equals the default), the
schema builders set the structured-data language tag `inLanguage` to the
resolved locale code itself, never a substituted default placeholder. -/
theorem schema_inLanguage_is_resolved_locale :
    ∀ locale : String, (websiteSchema locale).inLanguage = some locale
      ∧ ∀ overrides, (personSchema overrides locale).inLanguage = some locale :=
  fun _ => ⟨rfl, fun _ => rfl⟩

/-- C10: the schema builders' `locale` parameter defaults to `"en"`, so the
root layout's argument-free calls emit an `inLanguage` tag equal to the
registry default's code rather than omitting it. -/
theorem schema_locale_param_defaults_to_registry_default :
    schemaDefaultLocaleParam = defaultLocale
    ∧ rootLayoutWebsiteSchema.inLanguage = some defaultLocale
    ∧ rootLayoutPersonSchema.inLanguage = some defaultLocale :=
  ⟨rfl, rfl, rfl⟩
